import Mathlib

/-!
Shallow embedding of the Stockfish time-management allocator
(`src/timeman.cpp`, `TimeManagement`) and of the NNUE trace board loop
(`src/nnue/nnue_misc.cpp`, `trace`).

Conventions of the embedding:
* `TimePoint` (an `int64_t`) and the other C++ integers are modelled as `ℤ`.
* C++ `double` arithmetic is modelled as exact arithmetic on `ℚ`; the decimal
  literals of the source are exact rationals. The transcendental library calls
  `std::log10` and `std::pow` are kept abstract: every definition is
  parametrised over functions `flog10 : ℚ → ℚ` and `fpow : ℚ → ℚ → ℚ`, and
  theorems that need analytic facts about them take those facts as hypotheses.
* A C++ cast from `double` to an integer type truncates toward zero; this is
  `dtrunc` below.  C++ `int64_t` division also truncates toward zero; this is
  `Int.div` (written out explicitly, never `/`).
* IEEE division of a positive `double` by zero yields `+∞`, and
  `std::min(+∞, y) = y`; the one place the source can divide by zero
  (`optScale` in the explicit-horizon branch, when `mtg = 0`) is modelled by
  `ieeeMinDivPos`, which encodes exactly that behaviour.
-/

namespace Timeman

/-- Truncation of a rational toward zero, the semantics of a C++ cast from
`double` to an integer type (`TimePoint(x)` / `int(x)`). -/
def dtrunc (q : ℚ) : ℤ := if 0 ≤ q then ⌊q⌋ else ⌈q⌉

/-- C++ side to move (`Color us`). -/
inductive Color where
  | white
  | black
deriving DecidableEq, Repr

/-- The fields of `Search::LimitsType` read or written by
`TimeManagement::init`.  The per-side arrays `time[COLOR_NB]` and
`inc[COLOR_NB]` are stored as explicit white/black fields. -/
structure LimitsType where
  timeWhite : ℤ
  timeBlack : ℤ
  incWhite : ℤ
  incBlack : ℤ
  movestogo : ℤ
  npmsec : ℤ
  startTime : ℤ
deriving DecidableEq, Repr

/-- `limits.time[c]`. -/
def LimitsType.time (l : LimitsType) (c : Color) : ℤ :=
  match c with
  | .white => l.timeWhite
  | .black => l.timeBlack

/-- `limits.inc[c]`. -/
def LimitsType.inc (l : LimitsType) (c : Color) : ℤ :=
  match c with
  | .white => l.incWhite
  | .black => l.incBlack

/-- `limits.time[c] = v` (in-place array write). -/
def LimitsType.setTime (l : LimitsType) (c : Color) (v : ℤ) : LimitsType :=
  match c with
  | .white => { l with timeWhite := v }
  | .black => { l with timeBlack := v }

/-- `limits.inc[c] = v` (in-place array write). -/
def LimitsType.setInc (l : LimitsType) (c : Color) (v : ℤ) : LimitsType :=
  match c with
  | .white => { l with incWhite := v }
  | .black => { l with incBlack := v }

/-- The entries of the `OptionsMap` that `TimeManagement::init` reads:
`options["Move Overhead"]`, `options["nodestime"]`, `options["Ponder"]`. -/
structure OptionsMap where
  moveOverhead : ℤ
  nodestime : ℤ
  ponder : Bool
deriving DecidableEq, Repr

/-- The mutable state of the `TimeManagement` object: `startTime`,
`optimumTime`, `maximumTime`, `availableNodes`, `useNodesTime`. -/
structure TMState where
  startTime : ℤ
  optimumTime : ℤ
  maximumTime : ℤ
  availableNodes : ℤ
  useNodesTime : Bool
deriving DecidableEq, Repr

/-- The fifteen tunable globals `mtg_1 .. mtg_15` (each defaults to 50). -/
def MtgTable := Fin 15 → ℤ

/-- The default table: every `mtg_i` is 50. -/
def defaultMtgTable : MtgTable := fun _ => 50

/-- The `estimatedMoveHorizon` if/else-if chain of `init`: bucket lookup by
`moveNumber`, defaulting to 50 outside buckets 1–150. -/
def estimatedMoveHorizon (tbl : MtgTable) (moveNumber : ℤ) : ℤ :=
  if 0 < moveNumber ∧ moveNumber ≤ 10 then tbl 0
  else if 10 < moveNumber ∧ moveNumber ≤ 20 then tbl 1
  else if 20 < moveNumber ∧ moveNumber ≤ 30 then tbl 2
  else if 30 < moveNumber ∧ moveNumber ≤ 40 then tbl 3
  else if 40 < moveNumber ∧ moveNumber ≤ 50 then tbl 4
  else if 50 < moveNumber ∧ moveNumber ≤ 60 then tbl 5
  else if 60 < moveNumber ∧ moveNumber ≤ 70 then tbl 6
  else if 70 < moveNumber ∧ moveNumber ≤ 80 then tbl 7
  else if 80 < moveNumber ∧ moveNumber ≤ 90 then tbl 8
  else if 90 < moveNumber ∧ moveNumber ≤ 100 then tbl 9
  else if 100 < moveNumber ∧ moveNumber ≤ 110 then tbl 10
  else if 110 < moveNumber ∧ moveNumber ≤ 120 then tbl 11
  else if 120 < moveNumber ∧ moveNumber ≤ 130 then tbl 12
  else if 130 < moveNumber ∧ moveNumber ≤ 140 then tbl 13
  else if 140 < moveNumber ∧ moveNumber ≤ 150 then tbl 14
  else 50

/-- `int moveNumber = (ply % 2 == 0) ? (ply / 2) : std::div(ply, 2).quot + 1;`
with `ply : ℕ` (a game ply count is non-negative). -/
def moveNumberOfPly (ply : ℕ) : ℤ :=
  if ply % 2 = 0 then (ply / 2 : ℕ) else (ply / 2 + 1 : ℕ)

/-- Models the C++ double expression `std::min(x / den, alt)` at the one site
where `den` (the horizon `mtg`) can be zero while `x > 0`: IEEE division of a
positive double by zero yields `+∞`, and `std::min(+∞, alt) = alt`. -/
def ieeeMinDivPos (x : ℚ) (den : ℤ) (alt : ℚ) : ℚ :=
  if den = 0 then alt else min (x / (den : ℚ)) alt

/-- The pre-correction horizon of `init` (`timeman.cpp` line 184):
`mtg = limits.movestogo ? std::min(limits.movestogo, 50) : estimatedMoveHorizon`. -/
def mtgBase (tbl : MtgTable) (movestogo : ℤ) (ply : ℕ) : ℤ :=
  if movestogo ≠ 0 then min movestogo 50
  else estimatedMoveHorizon tbl (moveNumberOfPly ply)

/-- The low-time correction of `init` (lines 187–190): if less than one second
remains and `mtg / time > 0.05`, shrink `mtg` to `time * 0.05` (truncated). -/
def mtgCorrected (t mtg : ℤ) : ℤ :=
  if t < 1000 ∧ (mtg : ℚ) / (t : ℚ) > 0.05 then dtrunc ((t : ℚ) * 0.05) else mtg

/-- `timeLeft` (lines 193–194), floored at 1. -/
def timeLeftCalc (t inc moveOverhead mtg : ℤ) : ℤ :=
  max 1 (t + inc * (mtg - 1) - moveOverhead * (2 + mtg))

/-- The scale-factor computation of `init` (lines 196–220): the
sudden-death branch (`movestogo == 0`) and the explicit-horizon branch.
Returns `(optScale, maxScale)`. -/
def scalesCalc (flog10 : ℚ → ℚ) (fpow : ℚ → ℚ → ℚ)
    (t inc movestogo : ℤ) (ply : ℕ) (mtg timeLeft : ℤ) : ℚ × ℚ :=
  if movestogo = 0 then
    let optExtra : ℚ := if inc < 500 then 1 else 1.13
    let optConstant : ℚ :=
      min (0.00308 + 0.000319 * flog10 ((t : ℚ) / 1000)) 0.00506
    let maxConstant : ℚ :=
      max (3.39 + 3.01 * flog10 ((t : ℚ) / 1000)) 2.93
    (min (0.0122 + fpow ((ply : ℚ) + 2.95) 0.462 * optConstant)
        (0.213 * (t : ℚ) / (timeLeft : ℚ)) * optExtra,
     min 6.64 (maxConstant + (ply : ℚ) / 12))
  else
    (ieeeMinDivPos (0.88 + (ply : ℚ) / 116.4) mtg
        (0.88 * (t : ℚ) / (timeLeft : ℚ)),
     min 6.3 (1.5 + 0.11 * (mtg : ℚ)))

/-- Lines 224–225: `maximumTime = TimePoint(std::min(0.825 * time -
moveOverhead, maxScale * optimumTime)) - 10`. -/
def maximumCalc (t moveOverhead : ℤ) (maxScale : ℚ) (opt : ℤ) : ℤ :=
  dtrunc (min (0.825 * (t : ℚ) - (moveOverhead : ℚ)) (maxScale * (opt : ℚ))) - 10

/-- Lines 227–228: `if (options["Ponder"]) optimumTime += optimumTime / 4`
(`TimePoint` division truncates toward zero). -/
def ponderAdjust (ponder : Bool) (opt : ℤ) : ℤ :=
  if ponder then opt + Int.tdiv opt 4 else opt

/-- The budget computation of `init` after the nodes-as-time conversion
(`timeman.cpp` lines 117–228), on the effective `limits.time[us]` /
`limits.inc[us]` values `t` / `inc`.  Returns
`(optimumTime, maximumTime)` (with the ponder bonus already applied to
`optimumTime`; `maximumTime` is computed from the pre-ponder optimum, as in
the source). -/
def computeBudgets (flog10 : ℚ → ℚ) (fpow : ℚ → ℚ → ℚ) (tbl : MtgTable)
    (t inc movestogo moveOverhead : ℤ) (ply : ℕ) (ponder : Bool) : ℤ × ℤ :=
  let mtg : ℤ := mtgCorrected t (mtgBase tbl movestogo ply)
  let timeLeft : ℤ := timeLeftCalc t inc moveOverhead mtg
  let scales : ℚ × ℚ := scalesCalc flog10 fpow t inc movestogo ply mtg timeLeft
  let optimumTime : ℤ := dtrunc (scales.1 * (timeLeft : ℚ))
  let maximumTime : ℤ := maximumCalc t moveOverhead scales.2 optimumTime
  (ponderAdjust ponder optimumTime, maximumTime)

/-- The nodes-as-time conversion of `init` (lines 104–115): set the sticky
mode flag, seed `availableNodes` only if it is currently zero, then rewrite
the caller's limits (time becomes the accumulated node budget, the increment
is scaled by `npmsec`). -/
def nodesTimeSetup (npmsec : ℤ) (s : TMState) (limits : LimitsType)
    (us : Color) : TMState × LimitsType :=
  if npmsec ≠ 0 then
    let s := { s with useNodesTime := true }
    let s :=
      if s.availableNodes = 0 then
        { s with availableNodes := npmsec * limits.time us }
      else s
    let limits := limits.setTime us s.availableNodes
    let limits := limits.setInc us (limits.inc us * npmsec)
    let limits := { limits with npmsec := npmsec }
    (s, limits)
  else (s, limits)

/-- `TimeManagement::init`.  Mirrors `timeman.cpp` lines 83–229: start-time
store and zero-time early return, nodes-as-time conversion (mutating the
caller's limits), then the budget computation `computeBudgets` on the
effective limits.  Returns the updated state together with the (possibly
mutated) limits. -/
def init (flog10 : ℚ → ℚ) (fpow : ℚ → ℚ → ℚ) (tbl : MtgTable)
    (s : TMState) (limits : LimitsType) (us : Color) (ply : ℕ)
    (options : OptionsMap) : TMState × LimitsType :=
  let s := { s with startTime := limits.startTime }
  if limits.time us = 0 then (s, limits)
  else
    let sl := nodesTimeSetup options.nodestime s limits us
    let s := sl.1
    let limits := sl.2
    let b := computeBudgets flog10 fpow tbl (limits.time us) (limits.inc us)
      limits.movestogo options.moveOverhead ply options.ponder
    ({ s with optimumTime := b.1, maximumTime := b.2 }, limits)

/-- Mirror of the control flow of `computeBudgets` that records whether any
division whose denominator can vanish is reached with a zero denominator.
The divisions of the source and their denominators, in evaluation order:
`double(mtg) / limits.time[us]` (denominator `t`, evaluated only when
`t < 1000` because `&&` short-circuits), `limits.time[us] / 1000.0`
(denominator constant), `0.213 * t / double(timeLeft)` and
`0.88 * t / double(timeLeft)` (denominator `timeLeft`), and
`(0.88 + ply / 116.4) / mtg` (denominator `mtg`, explicit-horizon branch
only).  Divisions by the literal constants `1000.0`, `116.4`, `12` cannot
vanish and are not recorded. -/
def budgetsDivByZero (tbl : MtgTable) (t inc movestogo moveOverhead : ℤ)
    (ply : ℕ) : Bool :=
  let corrDiv : Bool := decide (t < 1000) && decide (t = 0)
  let mtg : ℤ := mtgCorrected t (mtgBase tbl movestogo ply)
  let timeLeft : ℤ := timeLeftCalc t inc moveOverhead mtg
  if movestogo = 0 then corrDiv || decide (timeLeft = 0)
  else corrDiv || decide (timeLeft = 0) || decide (mtg = 0)

/-- `TimeManagement::elapsed(nodes)`, with the physical clock reading
`now()` passed explicitly. -/
def elapsed (s : TMState) (nodes : ℤ) (now : ℤ) : ℤ :=
  if s.useNodesTime then nodes else now - s.startTime

/-- `TimeManagement::clear()`: only `availableNodes` is reset. -/
def clear (s : TMState) : TMState :=
  { s with availableNodes := 0 }

/-- `TimeManagement::advance_nodes_time(nodes)`. -/
def advance_nodes_time (s : TMState) (nodes : ℤ) : TMState :=
  { s with availableNodes := s.availableNodes + nodes }

/-- One call on the `TimeManagement` object, for reasoning about call
sequences. -/
inductive TMCall where
  | callInit (limits : LimitsType) (us : Color) (ply : ℕ) (options : OptionsMap)
  | callAdvance (nodes : ℤ)
  | callClear
deriving DecidableEq, Repr

/-- Apply one call to the state (the mutated limits of `init` are dropped:
only the allocator state is tracked). -/
def runCall (flog10 : ℚ → ℚ) (fpow : ℚ → ℚ → ℚ) (tbl : MtgTable)
    (s : TMState) : TMCall → TMState
  | .callInit limits us ply options => (init flog10 fpow tbl s limits us ply options).1
  | .callAdvance nodes => advance_nodes_time s nodes
  | .callClear => clear s

/-- Apply a sequence of calls left to right. -/
def runCalls (flog10 : ℚ → ℚ) (fpow : ℚ → ℚ → ℚ) (tbl : MtgTable)
    (l : List TMCall) (s : TMState) : TMState :=
  l.foldl (runCall flog10 fpow tbl) s

/-- A call that is legal inside one episode (between `clear()` calls) with
valid arguments: any `init` with a non-negative rate and clock, or an
`advance_nodes_time` with a non-negative node count.  `clear` ends the
episode and is excluded. -/
def episodeCall : TMCall → Bool
  | .callInit limits us _ options =>
      decide (0 ≤ options.nodestime) && decide (0 ≤ limits.time us)
  | .callAdvance nodes => decide (0 ≤ nodes)
  | .callClear => false

end Timeman

namespace NNUETrace

/-!
Model of the board-mutating loop of `trace` in `nnue_misc.cpp` (lines
164–196).  A `Position` is modelled by the data the loop reads and writes:
the piece placement, the side to move, and the four `accumulatorBig`
computed flags of the current `StateInfo` that the loop resets.  The network
evaluation `networks.big.evaluate` is an external collaborator and is kept
abstract as a function parameter; the purely textual output (the character
board and the bucket table) is not part of the position state and is not
modelled. -/

/-- `PieceType`; only the `KING` test matters to the loop. -/
inductive PieceType where
  | pawn
  | knight
  | bishop
  | rook
  | queen
  | king
deriving DecidableEq, Repr

/-- A board square content: `none` is `NO_PIECE`. -/
abbrev Piece := Option (Timeman.Color × PieceType)

/-- `type_of(pc)` for an occupied square. -/
def typeOf (p : Timeman.Color × PieceType) : PieceType := p.2

/-- The state of a `Position` read and written by the trace loop. -/
structure Position where
  board : Fin 64 → Piece
  sideToMove : Timeman.Color
  accComputedWhite : Bool
  accComputedBlack : Bool
  accComputedPSQTWhite : Bool
  accComputedPSQTBlack : Bool

/-- `pos.piece_on(sq)`. -/
def Position.piece_on (pos : Position) (sq : Fin 64) : Piece := pos.board sq

/-- `pos.remove_piece(sq)`. -/
def Position.remove_piece (pos : Position) (sq : Fin 64) : Position :=
  { pos with board := Function.update pos.board sq none }

/-- `pos.put_piece(pc, sq)`. -/
def Position.put_piece (pos : Position) (pc : Piece) (sq : Fin 64) : Position :=
  { pos with board := Function.update pos.board sq pc }

/-- `st->accumulatorBig.computed[...] = st->accumulatorBig.computedPSQT[...] = false`. -/
def Position.resetAcc (pos : Position) : Position :=
  { pos with
    accComputedWhite := false
    accComputedBlack := false
    accComputedPSQTWhite := false
    accComputedPSQTBlack := false }

/-- `make_square(f, r)`: Stockfish squares are `(r << 3) + f`. -/
def make_square (f r : Fin 8) : Fin 64 :=
  ⟨r.val * 8 + f.val, by omega⟩

/-- The squares in loop order: files outer, ranks inner. -/
def traceSquares : List (Fin 64) :=
  (List.finRange 8).flatMap fun f => (List.finRange 8).map fun r => make_square f r

/-- The sign adjustment `pos.side_to_move() == WHITE ? v : -v` applied to
both the base and the differential evaluation. -/
def signed (stm : Timeman.Color) (v : ℤ) : ℤ :=
  if stm = .white then v else -v

/-- The body of the double loop of `trace` for one square, threading the
position and accumulating the `(square, piece, value)` triples the loop
hands to `writeSquare`.  For a square holding a non-king piece: remove the
piece, invalidate the accumulator, evaluate, compute the differential value
`base - eval`, put the identical piece back and invalidate the accumulator
again. -/
def traceStep (evalNet : Position → ℤ) (base : ℤ)
    (st : Position × List (Fin 64 × Piece × Option ℤ)) (sq : Fin 64) :
    Position × List (Fin 64 × Piece × Option ℤ) :=
  let pos := st.1
  let pc := pos.piece_on sq
  match pc with
  | some p =>
      if typeOf p ≠ .king then
        let pos := (pos.remove_piece sq).resetAcc
        let ev := signed pos.sideToMove (evalNet pos)
        let v : ℤ := base - ev
        let pos := (pos.put_piece (some p) sq).resetAcc
        (pos, st.2 ++ [(sq, some p, some v)])
      else (pos, st.2 ++ [(sq, some p, none)])
  | none => (pos, st.2 ++ [(sq, none, none)])

/-- The board-mutating part of `trace`: the base evaluation followed by the
double loop over all squares.  Returns the final position and the collected
per-square values. -/
def traceLoop (evalNet : Position → ℤ) (pos : Position) :
    Position × List (Fin 64 × Piece × Option ℤ) :=
  let base := signed pos.sideToMove (evalNet pos)
  traceSquares.foldl (traceStep evalNet base) (pos, [])

/-- One iteration of the trace loop restores the board: the piece that was
removed is put back on the very same square. -/
theorem traceStep_board (evalNet : Position → ℤ) (base : ℤ)
    (st : Position × List (Fin 64 × Piece × Option ℤ)) (sq : Fin 64) :
    ((traceStep evalNet base st sq).1).board = st.1.board := by
  unfold traceStep
  dsimp only
  split
  · rename_i p heq
    split
    · show Function.update (Function.update st.1.board sq none) sq (some p) =
        st.1.board
      rw [Function.update_idem]
      rw [← show st.1.board sq = some p from heq]
      exact Function.update_eq_self sq st.1.board
    · rfl
  · rfl

/-- Folding the loop body over any square list leaves the board unchanged. -/
theorem traceFold_board (evalNet : Position → ℤ) (base : ℤ)
    (l : List (Fin 64)) (st : Position × List (Fin 64 × Piece × Option ℤ)) :
    ((l.foldl (traceStep evalNet base) st).1).board = st.1.board := by
  induction l generalizing st with
  | nil => rfl
  | cons sq l ih => rw [List.foldl_cons, ih, traceStep_board]

set_option maxRecDepth 4000 in
/-- C10: `trace` leaves the piece placement unchanged — for every square
whose piece the loop temporarily removes, the identical piece is put back
on the same square, so on return every square of the `Position` holds the
same piece as on entry, for every network evaluation function and every
starting position. -/
theorem trace_preserves_board (evalNet : Position → ℤ) (pos : Position) :
    ((traceLoop evalNet pos).1).board = pos.board := by
  unfold traceLoop
  exact traceFold_board evalNet (signed pos.sideToMove (evalNet pos))
    traceSquares (pos, [])

end NNUETrace

namespace Timeman

/-! ### Concrete instantiations used in closed statements -/

/-- A stand-in for `std::log10` in branches that never call it. -/
def flogZero : ℚ → ℚ := fun _ => 0

/-- A stand-in for `std::pow` in branches that never call it. -/
def fpowOne : ℚ → ℚ → ℚ := fun _ _ => 1

/-- A fresh `TimeManagement` state at game start. -/
def state0 : TMState := ⟨0, 0, 0, 0, false⟩

/-- Limits with `t` ms on both clocks, no increment, a given `movestogo`,
no `npmsec`, start timestamp 0. -/
def limitsTG (t movestogo : ℤ) : LimitsType := ⟨t, t, 0, 0, movestogo, 0, 0⟩

/-- Options with `Move Overhead = 0`, `nodestime = 0`, `Ponder` off. -/
def optionsBase : OptionsMap := ⟨0, 0, false⟩

/-- `optionsBase` with `Ponder` on. -/
def optionsPonder : OptionsMap := ⟨0, 0, true⟩

/-- Options with `nodestime = 1` (nodes-as-time mode). -/
def optionsNodes : OptionsMap := ⟨0, 1, false⟩

/-! ### Facts about truncation -/

/-- Truncation toward zero never gains a full unit. -/
theorem dtrunc_lt_add_one (q : ℚ) : ((dtrunc q : ℤ) : ℚ) < q + 1 := by
  unfold dtrunc
  split
  · exact lt_of_le_of_lt (Int.floor_le q) (by linarith)
  · exact_mod_cast Int.ceil_lt_add_one q

/-- Truncation of a non-negative rational is non-negative. -/
theorem dtrunc_nonneg {q : ℚ} (h : 0 ≤ q) : 0 ≤ dtrunc q := by
  unfold dtrunc
  rw [if_pos h]
  exact Int.floor_nonneg.mpr h

/-- Truncation of a non-negative rational does not exceed it. -/
theorem dtrunc_le_self {q : ℚ} (h : 0 ≤ q) : ((dtrunc q : ℤ) : ℚ) ≤ q := by
  unfold dtrunc
  rw [if_pos h]
  exact Int.floor_le q

/-! ### Structural lemmas about `init` -/

/-- With `nodestime = 0`, the nodes-as-time block is skipped. -/
theorem nodesTimeSetup_zero (s : TMState) (limits : LimitsType) (us : Color) :
    nodesTimeSetup 0 s limits us = (s, limits) := by
  simp [nodesTimeSetup]

/-- Characterisation of `init` on a live clock with `nodestime = 0`. -/
theorem init_eq_of_nodestime_zero (flog10 : ℚ → ℚ) (fpow : ℚ → ℚ → ℚ)
    (tbl : MtgTable) (s : TMState) (limits : LimitsType) (us : Color)
    (ply : ℕ) (options : OptionsMap)
    (hne : limits.time us ≠ 0) (hnp : options.nodestime = 0) :
    init flog10 fpow tbl s limits us ply options =
      ({ s with
          startTime := limits.startTime
          optimumTime := (computeBudgets flog10 fpow tbl (limits.time us)
            (limits.inc us) limits.movestogo options.moveOverhead ply
            options.ponder).1
          maximumTime := (computeBudgets flog10 fpow tbl (limits.time us)
            (limits.inc us) limits.movestogo options.moveOverhead ply
            options.ponder).2 }, limits) := by
  rw [init]
  rw [if_neg hne]
  rw [hnp, nodesTimeSetup_zero]

/-- The hard cap of lines 224–225 in isolation: whatever the scale factors
and the optimum are, `maximumTime` stays at least 9 ms below
`0.825 × time − moveOverhead`. -/
theorem maximumCalc_le (t moveOverhead : ℤ) (maxScale : ℚ) (opt : ℤ) :
    ((maximumCalc t moveOverhead maxScale opt : ℤ) : ℚ)
      ≤ 0.825 * (t : ℚ) - (moveOverhead : ℚ) - 9 := by
  unfold maximumCalc
  have h1 := dtrunc_lt_add_one
    (min (0.825 * (t : ℚ) - (moveOverhead : ℚ)) (maxScale * (opt : ℚ)))
  have h2 : min (0.825 * (t : ℚ) - (moveOverhead : ℚ)) (maxScale * (opt : ℚ))
      ≤ 0.825 * (t : ℚ) - (moveOverhead : ℚ) := min_le_left _ _
  push_cast
  linarith

/-- The same bound read off `computeBudgets`. -/
theorem computeBudgets_snd_le (flog10 : ℚ → ℚ) (fpow : ℚ → ℚ → ℚ)
    (tbl : MtgTable) (t inc movestogo moveOverhead : ℤ) (ply : ℕ)
    (ponder : Bool) :
    (((computeBudgets flog10 fpow tbl t inc movestogo moveOverhead ply
        ponder).2 : ℤ) : ℚ) ≤ 0.825 * (t : ℚ) - (moveOverhead : ℚ) - 9 := by
  exact maximumCalc_le t moveOverhead _ _

/-! ### Claim theorems -/

/-- C1: for every valid input to `init` (`remainingTime > 0`,
`increment ≥ 0`, `moveOverhead ≥ 0`, any ply, any movestogo, and for any
values of the abstract `log10`/`pow` and of the horizon table), the computed
`maximumTime` never exceeds `0.825 × remainingTime − moveOverhead`. -/
theorem init_maximum_bounded_by_fraction (flog10 : ℚ → ℚ) (fpow : ℚ → ℚ → ℚ)
    (tbl : MtgTable) (s : TMState) (limits : LimitsType) (us : Color)
    (ply : ℕ) (options : OptionsMap)
    (ht : 0 < limits.time us) (hinc : 0 ≤ limits.inc us)
    (hmo : 0 ≤ options.moveOverhead) (hnp : options.nodestime = 0) :
    ((((init flog10 fpow tbl s limits us ply options).1).maximumTime : ℤ) : ℚ)
      ≤ 0.825 * ((limits.time us : ℤ) : ℚ) - ((options.moveOverhead : ℤ) : ℚ) := by
  rw [init_eq_of_nodestime_zero flog10 fpow tbl s limits us ply options
    (ne_of_gt ht) hnp]
  have h := computeBudgets_snd_le flog10 fpow tbl (limits.time us)
    (limits.inc us) limits.movestogo options.moveOverhead ply options.ponder
  have hgoal : ((((computeBudgets flog10 fpow tbl (limits.time us)
      (limits.inc us) limits.movestogo options.moveOverhead ply
      options.ponder).2 : ℤ) : ℚ))
      ≤ 0.825 * ((limits.time us : ℤ) : ℚ) - ((options.moveOverhead : ℤ) : ℚ) := by
    linarith
  exact hgoal

/-- Witness for C1 at `remainingTime = 60000`, `movestogo = 20`,
`moveOverhead = 0`. -/
theorem init_maximum_bounded_by_fraction_witness :
    ((((init flogZero fpowOne defaultMtgTable state0 (limitsTG 60000 20)
        .white 0 optionsBase).1).maximumTime : ℤ) : ℚ)
      ≤ 0.825 * ((60000 : ℤ) : ℚ) - ((0 : ℤ) : ℚ) :=
  init_maximum_bounded_by_fraction flogZero fpowOne defaultMtgTable state0
    (limitsTG 60000 20) .white 0 optionsBase (by decide) (by decide)
    (by decide) rfl

/-- C7: when the side to move has no time (`limits.time[us] == 0`), `init`
stores only the start timestamp and changes nothing else: the budgets keep
their prior values and the caller's limits are untouched. -/
theorem init_zero_time_frame (flog10 : ℚ → ℚ) (fpow : ℚ → ℚ → ℚ)
    (tbl : MtgTable) (s : TMState) (limits : LimitsType) (us : Color)
    (ply : ℕ) (options : OptionsMap) (h : limits.time us = 0) :
    init flog10 fpow tbl s limits us ply options =
      ({ s with startTime := limits.startTime }, limits) := by
  rw [init, if_pos h]

/-- Witness for C7: a state with prior budgets 123/456 keeps them. -/
theorem init_zero_time_frame_witness :
    init flogZero fpowOne defaultMtgTable ⟨7, 123, 456, 0, false⟩
        (limitsTG 0 0) .white 5 optionsBase =
      ({ (⟨7, 123, 456, 0, false⟩ : TMState) with
          startTime := (limitsTG 0 0).startTime }, limitsTG 0 0) :=
  init_zero_time_frame flogZero fpowOne defaultMtgTable _ _ _ _ _ rfl

/-- C8: the concrete explicit-horizon scenario `remainingTime = 60000`,
`increment = 0`, `movestogo = 20`, `moveOverhead = 0`, `ply = 0`, ponder
off: `timeLeft = 60000`, `optScale = 0.044`, `maxScale = 3.7`,
`optimumTime = 2640`, `maximumTime = 9758`. -/
theorem init_concrete_explicit_horizon :
    ((init flogZero fpowOne defaultMtgTable state0 (limitsTG 60000 20)
        .white 0 optionsBase).1).optimumTime = 2640 ∧
    ((init flogZero fpowOne defaultMtgTable state0 (limitsTG 60000 20)
        .white 0 optionsBase).1).maximumTime = 9758 ∧
    timeLeftCalc 60000 0 0 20 = 60000 ∧
    scalesCalc flogZero fpowOne 60000 0 20 0 20 60000 = (0.044, 3.7) := by
  refine ⟨?_, ?_, ?_, ?_⟩ <;>
    norm_num [init, computeBudgets, nodesTimeSetup, mtgBase, mtgCorrected,
      timeLeftCalc, scalesCalc, ieeeMinDivPos, dtrunc, maximumCalc,
      ponderAdjust, estimatedMoveHorizon, moveNumberOfPly, defaultMtgTable,
      limitsTG, state0, optionsBase, flogZero, fpowOne, LimitsType.time,
      LimitsType.inc]

/-- C9: the allocator does not guarantee `optimumTime ≤ maximumTime`: at
the valid input `remainingTime = 100`, `movestogo = 1` (short clock,
explicit small horizon) the same call yields `optimumTime = 88` but
`maximumTime = 72`. -/
theorem init_maximum_can_undershoot_optimum :
    ((init flogZero fpowOne defaultMtgTable state0 (limitsTG 100 1)
        .white 0 optionsBase).1).optimumTime = 88 ∧
    ((init flogZero fpowOne defaultMtgTable state0 (limitsTG 100 1)
        .white 0 optionsBase).1).maximumTime = 72 ∧
    ((init flogZero fpowOne defaultMtgTable state0 (limitsTG 100 1)
        .white 0 optionsBase).1).maximumTime <
      ((init flogZero fpowOne defaultMtgTable state0 (limitsTG 100 1)
        .white 0 optionsBase).1).optimumTime := by
  refine ⟨?_, ?_, ?_⟩ <;>
    norm_num [init, computeBudgets, nodesTimeSetup, mtgBase, mtgCorrected,
      timeLeftCalc, scalesCalc, ieeeMinDivPos, dtrunc, maximumCalc,
      ponderAdjust, estimatedMoveHorizon, moveNumberOfPly, defaultMtgTable,
      limitsTG, state0, optionsBase, flogZero, fpowOne, LimitsType.time,
      LimitsType.inc]

/-- The ponder adjustment relation at the `computeBudgets` level: the
ponder run returns the non-ponder optimum plus its truncated quarter, and
the same maximum. -/
theorem computeBudgets_ponder_relation (flog10 : ℚ → ℚ) (fpow : ℚ → ℚ → ℚ)
    (tbl : MtgTable) (t inc movestogo moveOverhead : ℤ) (ply : ℕ) :
    (computeBudgets flog10 fpow tbl t inc movestogo moveOverhead ply true).1 =
      (computeBudgets flog10 fpow tbl t inc movestogo moveOverhead ply false).1 +
      Int.tdiv (computeBudgets flog10 fpow tbl t inc movestogo moveOverhead
        ply false).1 4 ∧
    (computeBudgets flog10 fpow tbl t inc movestogo moveOverhead ply true).2 =
      (computeBudgets flog10 fpow tbl t inc movestogo moveOverhead ply
        false).2 :=
  ⟨rfl, rfl⟩

/-- Counterexample to C3: at `remainingTime = 1003`, `movestogo = 1`
(everything else zero), the non-ponder optimum is 882 and the ponder
optimum is `882 + 882 / 4 = 1102`, which is not exactly 25% larger
(`1.25 × 882 = 1102.5`). -/
theorem init_ponder_not_exact_quarter_counterexample :
    ((init flogZero fpowOne defaultMtgTable state0 (limitsTG 1003 1)
        .white 0 optionsPonder).1).optimumTime = 1102 ∧
    ((init flogZero fpowOne defaultMtgTable state0 (limitsTG 1003 1)
        .white 0 optionsBase).1).optimumTime = 882 ∧
    ¬ ((1102 : ℚ) = (5 / 4) * 882) := by
  refine ⟨?_, ?_, ?_⟩ <;>
    norm_num [init, computeBudgets, nodesTimeSetup, mtgBase, mtgCorrected,
      timeLeftCalc, scalesCalc, ieeeMinDivPos, dtrunc, maximumCalc,
      ponderAdjust, estimatedMoveHorizon, moveNumberOfPly, defaultMtgTable,
      limitsTG, state0, optionsBase, optionsPonder, flogZero, fpowOne,
      LimitsType.time, LimitsType.inc, Int.tdiv]

/-- C3 (amended): on a live clock, enabling the Ponder option changes
`optimumTime` to the non-ponder value plus its quarter under truncating
integer division — so the increase is exact 25% only when that value is
divisible by 4, and there is no increase at all when it is below 4 — and
`maximumTime` is unaffected by the Ponder option. -/
theorem init_ponder_effect (flog10 : ℚ → ℚ) (fpow : ℚ → ℚ → ℚ)
    (tbl : MtgTable) (s : TMState) (limits : LimitsType) (us : Color)
    (ply : ℕ) (options : OptionsMap) (hne : limits.time us ≠ 0) :
    ((init flog10 fpow tbl s limits us ply
        { options with ponder := true }).1).optimumTime =
      ((init flog10 fpow tbl s limits us ply
        { options with ponder := false }).1).optimumTime +
      Int.tdiv (((init flog10 fpow tbl s limits us ply
        { options with ponder := false }).1).optimumTime) 4 ∧
    ((init flog10 fpow tbl s limits us ply
        { options with ponder := true }).1).maximumTime =
      ((init flog10 fpow tbl s limits us ply
        { options with ponder := false }).1).maximumTime := by
  have hT : ({ options with ponder := true } : OptionsMap).nodestime =
      options.nodestime := rfl
  rw [init, init, if_neg hne, if_neg hne]
  exact computeBudgets_ponder_relation flog10 fpow tbl _ _ _ _ ply

/-- Witness for C3 (amended) at `remainingTime = 1003`, `movestogo = 1`. -/
theorem init_ponder_effect_witness :
    ((init flogZero fpowOne defaultMtgTable state0 (limitsTG 1003 1)
        .white 0 { optionsBase with ponder := true }).1).optimumTime =
      ((init flogZero fpowOne defaultMtgTable state0 (limitsTG 1003 1)
        .white 0 { optionsBase with ponder := false }).1).optimumTime +
      Int.tdiv (((init flogZero fpowOne defaultMtgTable state0
        (limitsTG 1003 1) .white 0
        { optionsBase with ponder := false }).1).optimumTime) 4 ∧
    ((init flogZero fpowOne defaultMtgTable state0 (limitsTG 1003 1)
        .white 0 { optionsBase with ponder := true }).1).maximumTime =
      ((init flogZero fpowOne defaultMtgTable state0 (limitsTG 1003 1)
        .white 0 { optionsBase with ponder := false }).1).maximumTime :=
  init_ponder_effect flogZero fpowOne defaultMtgTable state0 (limitsTG 1003 1)
    .white 0 optionsBase (by decide)

/-- Counterexample to C4: at `remainingTime = 5`, `movestogo = 1`
(everything else zero), the low-time correction fires
(`5 < 1000` and `1/5 > 0.05`) and drives `mtg` to 0, and the
explicit-horizon branch then reaches the division
`(0.88 + ply / 116.4) / mtg` with a zero denominator — `mtg` is used as a
divisor outside `timeLeft`, contrary to the claim. -/
theorem init_divides_by_mtg_counterexample :
    ((5 : ℤ) < 1000 ∧ ((mtgBase defaultMtgTable 1 0 : ℤ) : ℚ) / ((5 : ℤ) : ℚ) > 0.05) ∧
    mtgCorrected 5 (mtgBase defaultMtgTable 1 0) = 0 ∧
    budgetsDivByZero defaultMtgTable 5 0 1 0 0 = true := by
  refine ⟨⟨by norm_num, ?_⟩, ?_, ?_⟩ <;>
    norm_num [budgetsDivByZero, mtgBase, mtgCorrected, timeLeftCalc, dtrunc,
      estimatedMoveHorizon, moveNumberOfPly, defaultMtgTable]

/-- C4 (amended): on a live clock in the sudden-death branch
(`movestogo = 0`) — where `mtg` indeed appears only in `(mtg−1)`/`(mtg+2)`
inside the floored `timeLeft` — no division in `init` has a zero
denominator, whatever the horizon table, increment, overhead and ply; in
particular this covers every input on which the low-time correction drives
`mtg` below 1. -/
theorem budgets_no_div_by_zero_sudden_death (tbl : MtgTable)
    (t inc moveOverhead : ℤ) (ply : ℕ) (ht : 1 ≤ t) :
    budgetsDivByZero tbl t inc 0 moveOverhead ply = false := by
  have h0 : ¬ (t = 0) := by omega
  have h1 : timeLeftCalc t inc moveOverhead
      (mtgCorrected t (mtgBase tbl 0 ply)) ≠ 0 := by
    unfold timeLeftCalc
    have := le_max_left (1 : ℤ)
      (t + inc * (mtgCorrected t (mtgBase tbl 0 ply) - 1) -
        moveOverhead * (2 + mtgCorrected t (mtgBase tbl 0 ply)))
    omega
  simp [budgetsDivByZero, h0, h1]

/-- Witness for C4 (amended) at `remainingTime = 5` (a low-time input on
which the correction drives `mtg` to 0), sudden-death branch. -/
theorem budgets_no_div_by_zero_sudden_death_witness :
    budgetsDivByZero defaultMtgTable 5 0 0 0 0 = false :=
  budgets_no_div_by_zero_sudden_death defaultMtgTable 5 0 0 0 (by decide)

/-- A case split for a single conditional with non-negative branches. -/
theorem ite_nonneg_int {c : Prop} [Decidable c] {a b : ℤ} (ha : 0 ≤ a)
    (hb : 0 ≤ b) : 0 ≤ if c then a else b := by
  split <;> assumption

/-- Every bucket estimate lies in the tuning range's lower bound. -/
theorem estimatedMoveHorizon_nonneg (tbl : MtgTable) (n : ℤ)
    (htbl : ∀ i, 0 ≤ tbl i) : 0 ≤ estimatedMoveHorizon tbl n := by
  unfold estimatedMoveHorizon
  repeat' apply ite_nonneg_int
  all_goals first | exact htbl _ | norm_num

/-- The pre-correction horizon is non-negative for a valid `movestogo` and
a table within its tuning range. -/
theorem mtgBase_nonneg (tbl : MtgTable) (movestogo : ℤ) (ply : ℕ)
    (htbl : ∀ i, 0 ≤ tbl i) (hmov : 0 ≤ movestogo) :
    0 ≤ mtgBase tbl movestogo ply := by
  unfold mtgBase
  split
  · exact le_min hmov (by norm_num)
  · exact estimatedMoveHorizon_nonneg tbl _ htbl

/-- The low-time correction preserves non-negativity of the horizon. -/
theorem mtgCorrected_nonneg (t mtg : ℤ) (ht : 1 ≤ t) (h : 0 ≤ mtg) :
    0 ≤ mtgCorrected t mtg := by
  unfold mtgCorrected
  split
  · refine dtrunc_nonneg (mul_nonneg ?_ (by norm_num))
    exact_mod_cast le_trans zero_le_one ht
  · exact h

/-- `timeLeft` is at least 1 (the floor of line 193). -/
theorem timeLeftCalc_pos (t inc moveOverhead mtg : ℤ) :
    1 ≤ timeLeftCalc t inc moveOverhead mtg :=
  le_max_left 1 _

/-- `optScale` is non-negative in both branches, for any `log10` bounded
below by −4 on `[1/1000, ∞)` (true of the real `log10`, which is ≥ −3
there) and any non-negative `pow`. -/
theorem scalesCalc_fst_nonneg (flog10 : ℚ → ℚ) (fpow : ℚ → ℚ → ℚ)
    (t inc movestogo : ℤ) (ply : ℕ) (mtg timeLeft : ℤ)
    (hlog : ∀ q : ℚ, 1 / 1000 ≤ q → -4 ≤ flog10 q)
    (hpow : ∀ x y : ℚ, 0 ≤ x → 0 ≤ fpow x y)
    (ht : 1 ≤ t) (hmtg : 0 ≤ mtg) (htl : 1 ≤ timeLeft) :
    0 ≤ (scalesCalc flog10 fpow t inc movestogo ply mtg timeLeft).1 := by
  have htq : (1 : ℚ) ≤ (t : ℚ) := by exact_mod_cast ht
  have htlq : (1 : ℚ) ≤ (timeLeft : ℚ) := by exact_mod_cast htl
  have halt : 0 ≤ 0.88 * (t : ℚ) / (timeLeft : ℚ) :=
    div_nonneg (by linarith) (by linarith)
  unfold scalesCalc
  split
  · have hL : -4 ≤ flog10 ((t : ℚ) / 1000) := by
      refine hlog _ ?_
      rw [div_le_div_iff₀ (by norm_num) (by norm_num)]
      linarith
    have hoptc : 0 ≤ min (0.00308 + 0.000319 * flog10 ((t : ℚ) / 1000)) 0.00506 :=
      le_min (by linarith) (by norm_num)
    have hpw : 0 ≤ fpow ((ply : ℚ) + 2.95) 0.462 := by
      refine hpow _ _ ?_
      have : (0 : ℚ) ≤ (ply : ℚ) := by positivity
      linarith
    refine mul_nonneg (le_min ?_ ?_) ?_
    · nlinarith
    · exact div_nonneg (by linarith) (by linarith)
    · split <;> norm_num
  · unfold ieeeMinDivPos
    split
    · exact halt
    · refine le_min (div_nonneg ?_ ?_) halt
      · have : (0 : ℚ) ≤ (ply : ℚ) := by positivity
        positivity
      · have : (0 : ℤ) ≤ mtg := hmtg
        exact_mod_cast this

/-- `optimumTime` (with any ponder setting) is non-negative whenever the
inputs are valid. -/
theorem computeBudgets_fst_nonneg (flog10 : ℚ → ℚ) (fpow : ℚ → ℚ → ℚ)
    (tbl : MtgTable) (t inc movestogo moveOverhead : ℤ) (ply : ℕ)
    (ponder : Bool)
    (hlog : ∀ q : ℚ, 1 / 1000 ≤ q → -4 ≤ flog10 q)
    (hpow : ∀ x y : ℚ, 0 ≤ x → 0 ≤ fpow x y)
    (htbl : ∀ i, 0 ≤ tbl i) (ht : 1 ≤ t) (hmov : 0 ≤ movestogo) :
    0 ≤ (computeBudgets flog10 fpow tbl t inc movestogo moveOverhead ply
      ponder).1 := by
  have hmtg : 0 ≤ mtgCorrected t (mtgBase tbl movestogo ply) :=
    mtgCorrected_nonneg t _ ht (mtgBase_nonneg tbl movestogo ply htbl hmov)
  have htl := timeLeftCalc_pos t inc moveOverhead
    (mtgCorrected t (mtgBase tbl movestogo ply))
  have hsc := scalesCalc_fst_nonneg flog10 fpow t inc movestogo ply
    (mtgCorrected t (mtgBase tbl movestogo ply))
    (timeLeftCalc t inc moveOverhead (mtgCorrected t (mtgBase tbl movestogo ply)))
    hlog hpow ht hmtg htl
  have hopt : 0 ≤ dtrunc ((scalesCalc flog10 fpow t inc movestogo ply
      (mtgCorrected t (mtgBase tbl movestogo ply))
      (timeLeftCalc t inc moveOverhead
        (mtgCorrected t (mtgBase tbl movestogo ply)))).1 *
      ((timeLeftCalc t inc moveOverhead
        (mtgCorrected t (mtgBase tbl movestogo ply)) : ℤ) : ℚ)) := by
    refine dtrunc_nonneg (mul_nonneg hsc ?_)
    have : (1 : ℚ) ≤ ((timeLeftCalc t inc moveOverhead
        (mtgCorrected t (mtgBase tbl movestogo ply)) : ℤ) : ℚ) := by
      exact_mod_cast htl
    linarith
  show 0 ≤ ponderAdjust ponder _
  unfold ponderAdjust
  split
  · exact add_nonneg hopt (Int.tdiv_nonneg hopt (by norm_num))
  · exact hopt

/-- C2 (amended): for every valid input to `init` (`remainingTime > 0`,
`increment ≥ 0`, `moveOverhead ≥ 0`, `movestogo ≥ 0`, a horizon table in
its tuning range, and `log10`/`pow` satisfying the stated analytic bounds),
the computed `optimumTime` is non-negative.  (`maximumTime ≥ 0` fails: see
the counterexample, where it is −10.) -/
theorem init_optimum_nonneg (flog10 : ℚ → ℚ) (fpow : ℚ → ℚ → ℚ)
    (tbl : MtgTable) (s : TMState) (limits : LimitsType) (us : Color)
    (ply : ℕ) (options : OptionsMap)
    (hlog : ∀ q : ℚ, 1 / 1000 ≤ q → -4 ≤ flog10 q)
    (hpow : ∀ x y : ℚ, 0 ≤ x → 0 ≤ fpow x y)
    (htbl : ∀ i, 0 ≤ tbl i)
    (ht : 0 < limits.time us) (hinc : 0 ≤ limits.inc us)
    (hmo : 0 ≤ options.moveOverhead) (hmov : 0 ≤ limits.movestogo)
    (hnp : options.nodestime = 0) :
    0 ≤ ((init flog10 fpow tbl s limits us ply options).1).optimumTime := by
  rw [init_eq_of_nodestime_zero flog10 fpow tbl s limits us ply options
    (ne_of_gt ht) hnp]
  exact computeBudgets_fst_nonneg flog10 fpow tbl (limits.time us)
    (limits.inc us) limits.movestogo options.moveOverhead ply options.ponder
    hlog hpow htbl ht hmov

/-- Witness for C2 (amended) at `remainingTime = 1`, `movestogo = 1`. -/
theorem init_optimum_nonneg_witness :
    0 ≤ ((init flogZero fpowOne defaultMtgTable state0 (limitsTG 1 1)
      .white 0 optionsBase).1).optimumTime :=
  init_optimum_nonneg flogZero fpowOne defaultMtgTable state0 (limitsTG 1 1)
    .white 0 optionsBase (fun q _ => by norm_num [flogZero])
    (fun x y _ => by norm_num [fpowOne]) (fun i => by norm_num [defaultMtgTable])
    (by decide) (by decide) (by decide) (by decide) rfl

/-- `nodesTimeSetup` with an active rate sets the sticky flag. -/
theorem nodesTimeSetup_fst_useNodesTime_of_ne {npmsec : ℤ} (s : TMState)
    (limits : LimitsType) (us : Color) (h : npmsec ≠ 0) :
    ((nodesTimeSetup npmsec s limits us).1).useNodesTime = true := by
  unfold nodesTimeSetup
  rw [if_pos h]
  dsimp only
  split <;> rfl

/-- `availableNodes` after `nodesTimeSetup` with an active rate: seeded
from zero, untouched otherwise. -/
theorem nodesTimeSetup_fst_availableNodes_of_ne {npmsec : ℤ} (s : TMState)
    (limits : LimitsType) (us : Color) (h : npmsec ≠ 0) :
    ((nodesTimeSetup npmsec s limits us).1).availableNodes =
      if s.availableNodes = 0 then npmsec * limits.time us
      else s.availableNodes := by
  unfold nodesTimeSetup
  rw [if_pos h]
  dsimp only
  split <;> simp_all

/-- The mode flag after `init`: set if the clock is live and the rate is
non-zero, otherwise kept. -/
theorem init_fst_useNodesTime (flog10 : ℚ → ℚ) (fpow : ℚ → ℚ → ℚ)
    (tbl : MtgTable) (s : TMState) (limits : LimitsType) (us : Color)
    (ply : ℕ) (options : OptionsMap) :
    ((init flog10 fpow tbl s limits us ply options).1).useNodesTime =
      if limits.time us ≠ 0 ∧ options.nodestime ≠ 0 then true
      else s.useNodesTime := by
  rw [init]
  by_cases h : limits.time us = 0
  · rw [if_pos h, if_neg (by tauto)]
  · rw [if_neg h]
    by_cases h2 : options.nodestime = 0
    · rw [if_neg (by tauto)]
      show ((nodesTimeSetup options.nodestime
        { s with startTime := limits.startTime } limits us).1).useNodesTime =
        s.useNodesTime
      rw [h2, nodesTimeSetup_zero]
    · rw [if_pos ⟨h, h2⟩]
      exact nodesTimeSetup_fst_useNodesTime_of_ne
        { s with startTime := limits.startTime } limits us h2

/-- `availableNodes` after `init`: seeded exactly when the clock is live,
the rate is non-zero and the accumulator is currently zero; untouched in
every other case. -/
theorem init_fst_availableNodes (flog10 : ℚ → ℚ) (fpow : ℚ → ℚ → ℚ)
    (tbl : MtgTable) (s : TMState) (limits : LimitsType) (us : Color)
    (ply : ℕ) (options : OptionsMap) :
    ((init flog10 fpow tbl s limits us ply options).1).availableNodes =
      if limits.time us ≠ 0 ∧ options.nodestime ≠ 0 ∧ s.availableNodes = 0
      then options.nodestime * limits.time us
      else s.availableNodes := by
  rw [init]
  by_cases h : limits.time us = 0
  · rw [if_pos h, if_neg (by tauto)]
  · rw [if_neg h]
    by_cases h2 : options.nodestime = 0
    · rw [if_neg (by tauto)]
      show ((nodesTimeSetup options.nodestime
        { s with startTime := limits.startTime } limits us).1).availableNodes =
        s.availableNodes
      rw [h2, nodesTimeSetup_zero]
    · show ((nodesTimeSetup options.nodestime
        { s with startTime := limits.startTime } limits us).1).availableNodes = _
      rw [nodesTimeSetup_fst_availableNodes_of_ne
        { s with startTime := limits.startTime } limits us h2]
      by_cases h3 : s.availableNodes = 0
      · rw [if_pos h3, if_pos ⟨h, h2, h3⟩]
      · rw [if_neg h3, if_neg (by tauto)]

/-- Any single call keeps the sticky flag set. -/
theorem runCall_useNodesTime_true (flog10 : ℚ → ℚ) (fpow : ℚ → ℚ → ℚ)
    (tbl : MtgTable) (s : TMState) (c : TMCall)
    (h : s.useNodesTime = true) :
    (runCall flog10 fpow tbl s c).useNodesTime = true := by
  cases c with
  | callInit limits us ply options =>
      show ((init flog10 fpow tbl s limits us ply options).1).useNodesTime = true
      rw [init_fst_useNodesTime]
      split
      · rfl
      · exact h
  | callAdvance nodes => exact h
  | callClear => exact h

/-- A valid episode call never decreases `availableNodes`. -/
theorem runCall_availableNodes_mono (flog10 : ℚ → ℚ) (fpow : ℚ → ℚ → ℚ)
    (tbl : MtgTable) (s : TMState) (c : TMCall)
    (h : episodeCall c = true) :
    s.availableNodes ≤ (runCall flog10 fpow tbl s c).availableNodes := by
  cases c with
  | callInit limits us ply options =>
      have hv : 0 ≤ options.nodestime ∧ 0 ≤ limits.time us := by
        simpa [episodeCall] using h
      show s.availableNodes ≤
        ((init flog10 fpow tbl s limits us ply options).1).availableNodes
      rw [init_fst_availableNodes]
      split
      · rename_i hcond
        rw [hcond.2.2]
        exact mul_nonneg hv.1 hv.2
      · exact le_refl _
  | callAdvance nodes =>
      have hv : 0 ≤ nodes := by simpa [episodeCall] using h
      show s.availableNodes ≤ s.availableNodes + nodes
      omega
  | callClear => simp [episodeCall] at h

/-- The state after a first `init` in nodes-as-time mode
(`nodestime = 1`, 100 ms on the clock, start timestamp 0). -/
def stateAfterNodesInit : TMState :=
  (init flogZero fpowOne defaultMtgTable state0 (limitsTG 100 0) .white 0
    optionsNodes).1

/-- Counterexample to C5: after an `init` that configures a nonzero
virtual-time rate, a `clear()` does not make `elapsed` revert to the
physical clock — `elapsed(5)` at physical time 999 still returns the node
count 5, not `now() − startTime = 999`. -/
theorem clear_does_not_revert_elapsed_counterexample :
    elapsed (clear stateAfterNodesInit) 5 999 = 5 ∧
    999 - (clear stateAfterNodesInit).startTime = 999 ∧ (5 : ℤ) ≠ 999 := by
  refine ⟨?_, ?_, by norm_num⟩ <;>
    norm_num [stateAfterNodesInit, elapsed, clear, init, nodesTimeSetup,
      computeBudgets, mtgBase, mtgCorrected, timeLeftCalc, scalesCalc,
      ieeeMinDivPos, dtrunc, maximumCalc, ponderAdjust, estimatedMoveHorizon,
      moveNumberOfPly, defaultMtgTable, limitsTG, state0, optionsNodes,
      flogZero, fpowOne, LimitsType.time, LimitsType.inc,
      LimitsType.setTime, LimitsType.setInc]

/-- C5 (amended): an `init` call that configures a nonzero virtual-time
rate on a live clock turns the virtual-time mode on; from then on the mode
survives every further call — including `clear()`, which resets only
`availableNodes` and does not revert to the physical clock — and every
`elapsed(nodes)` query returns the supplied work-unit count, never
`now() − startTime`. -/
theorem nodes_time_mode_sticky (flog10 : ℚ → ℚ) (fpow : ℚ → ℚ → ℚ)
    (tbl : MtgTable) :
    (∀ (s : TMState) (limits : LimitsType) (us : Color) (ply : ℕ)
        (options : OptionsMap), options.nodestime ≠ 0 → limits.time us ≠ 0 →
      ((init flog10 fpow tbl s limits us ply options).1).useNodesTime = true) ∧
    (∀ (l : List TMCall) (s : TMState), s.useNodesTime = true →
      (runCalls flog10 fpow tbl l s).useNodesTime = true) ∧
    (∀ (s : TMState) (nodes now : ℤ), s.useNodesTime = true →
      elapsed s nodes now = nodes) := by
  refine ⟨?_, ?_, ?_⟩
  · intro s limits us ply options hnp ht
    rw [init_fst_useNodesTime, if_pos ⟨ht, hnp⟩]
  · intro l
    induction l with
    | nil => intro s h; exact h
    | cons c l ih =>
        intro s h
        exact ih _ (runCall_useNodesTime_true flog10 fpow tbl s c h)
  · intro s nodes now h
    unfold elapsed
    rw [h]
    rfl

/-- Witness for C5 (amended): the flag is set by a nodes-time `init`, it
survives a `clear`, and `elapsed` then returns the node count. -/
theorem nodes_time_mode_sticky_witness :
    ((init flogZero fpowOne defaultMtgTable state0 (limitsTG 100 0) .white 0
        optionsNodes).1).useNodesTime = true ∧
    (runCalls flogZero fpowOne defaultMtgTable [.callClear]
      (⟨0, 0, 0, 100, true⟩ : TMState)).useNodesTime = true ∧
    elapsed (⟨0, 0, 0, 0, true⟩ : TMState) 5 999 = 5 :=
  ⟨(nodes_time_mode_sticky flogZero fpowOne defaultMtgTable).1 state0
      (limitsTG 100 0) .white 0 optionsNodes (by decide) (by decide),
   (nodes_time_mode_sticky flogZero fpowOne defaultMtgTable).2.1
      [.callClear] ⟨0, 0, 0, 100, true⟩ rfl,
   (nodes_time_mode_sticky flogZero fpowOne defaultMtgTable).2.2
      ⟨0, 0, 0, 0, true⟩ 5 999 rfl⟩

/-- C6: within one episode `availableNodes` is seeded at most once — only
when it is currently zero, to `npmsec × remainingTime[side]`, on the first
`init` with a nonzero rate — an `init` that finds it nonzero leaves it
unchanged, any sequence of valid episode calls (`init`s and
`advance_nodes_time`s) never decreases it, and `clear()` resets it to 0. -/
theorem availableNodes_seeded_once_monotone (flog10 : ℚ → ℚ)
    (fpow : ℚ → ℚ → ℚ) (tbl : MtgTable) :
    (∀ (s : TMState) (limits : LimitsType) (us : Color) (ply : ℕ)
        (options : OptionsMap), s.availableNodes = 0 →
        options.nodestime ≠ 0 → limits.time us ≠ 0 →
      ((init flog10 fpow tbl s limits us ply options).1).availableNodes =
        options.nodestime * limits.time us) ∧
    (∀ (s : TMState) (limits : LimitsType) (us : Color) (ply : ℕ)
        (options : OptionsMap), s.availableNodes ≠ 0 →
      ((init flog10 fpow tbl s limits us ply options).1).availableNodes =
        s.availableNodes) ∧
    (∀ (l : List TMCall) (s : TMState), (∀ c ∈ l, episodeCall c = true) →
      s.availableNodes ≤ (runCalls flog10 fpow tbl l s).availableNodes) ∧
    (∀ s : TMState, (clear s).availableNodes = 0) := by
  refine ⟨?_, ?_, ?_, fun s => rfl⟩
  · intro s limits us ply options hz hnp ht
    rw [init_fst_availableNodes, if_pos ⟨ht, hnp, hz⟩]
  · intro s limits us ply options hz
    rw [init_fst_availableNodes, if_neg (by tauto)]
  · intro l
    induction l with
    | nil => intro s _; exact le_refl _
    | cons c l ih =>
        intro s h
        refine le_trans
          (runCall_availableNodes_mono flog10 fpow tbl s c (h c (by simp)))
          (ih _ ?_)
        intro c2 hc2
        exact h c2 (by simp [hc2])

/-- Witness for C6: a first nodes-time `init` seeds `1 × 100`, and a
two-call episode (that `init`, then `advance_nodes_time 3`) never decreases
the accumulator. -/
theorem availableNodes_seeded_once_monotone_witness :
    ((init flogZero fpowOne defaultMtgTable state0 (limitsTG 100 0) .white 0
        optionsNodes).1).availableNodes = 1 * 100 ∧
    state0.availableNodes ≤
      (runCalls flogZero fpowOne defaultMtgTable
        [.callInit (limitsTG 100 0) .white 0 optionsNodes, .callAdvance 3]
        state0).availableNodes :=
  ⟨(availableNodes_seeded_once_monotone flogZero fpowOne defaultMtgTable).1
      state0 (limitsTG 100 0) .white 0 optionsNodes rfl (by decide) (by decide),
   (availableNodes_seeded_once_monotone flogZero fpowOne defaultMtgTable).2.2.1
      [.callInit (limitsTG 100 0) .white 0 optionsNodes, .callAdvance 3]
      state0 (by intro c hc; fin_cases hc <;> decide)⟩

/-- Counterexample to C2: at the valid input `remainingTime = 1`,
`increment = 0`, `moveOverhead = 0`, `movestogo = 1`, `init` computes
`maximumTime = −10 < 0`. -/
theorem init_maximum_negative_counterexample :
    ((init flogZero fpowOne defaultMtgTable state0 (limitsTG 1 1)
        .white 0 optionsBase).1).maximumTime = -10 ∧
    ((init flogZero fpowOne defaultMtgTable state0 (limitsTG 1 1)
        .white 0 optionsBase).1).maximumTime < 0 := by
  refine ⟨?_, ?_⟩ <;>
    norm_num [init, computeBudgets, nodesTimeSetup, mtgBase, mtgCorrected,
      timeLeftCalc, scalesCalc, ieeeMinDivPos, dtrunc, maximumCalc,
      ponderAdjust, estimatedMoveHorizon, moveNumberOfPly, defaultMtgTable,
      limitsTG, state0, optionsBase, flogZero, fpowOne, LimitsType.time,
      LimitsType.inc]

end Timeman
